import Mathlib

/-!
Shallow embedding of the presence-cache / proximity-matching core of the
Telegram bot in `src/main.py` (a Google Cloud function backed by Google
Cloud Datastore), together with proofs settling the specification claims.

Conventions of the embedding:
* Python dicts are insertion-ordered association lists `List (String × α)`;
  assignment is `Dict.upsert` (replace in place or append), lookup is
  `List.lookup`, and `in` is `Dict.hasKey`.
* The datastore is a pair of entity lists (kind `Member`, kind `Organization`)
  keyed by name; `db_put` replaces the entity with the same key or appends.
  Every datastore call made by the code is also logged in a `storeCalls`
  trace so that "no store I/O happened" is expressible.
* Python runtime errors (`KeyError`, `ValueError`, `IndexError`) are the
  `PyErr` codes of an `Except` monad.
* `datetime` values are split into the calendar part (`PyDate`, whose `.day`
  field is the day of month, as used by `refresh_members`) and, for message
  ages, an absolute timestamp in whole seconds (`ℤ`, the granularity of
  Telegram's `date` fields).
* Numeric values (coordinates, distances) are `ℚ`. Travel radii are kept as
  the strings the code stores (`query.data`), converted by `pyFloat` exactly
  where the code calls `float(...)`.
* The geodesic formula of `geopy.distance.distance` is an opaque parameter
  `geo : GeopyPoint → GeopyPoint → ℚ`; the `geopy.Point` construction it is
  fed through is modelled faithfully: a tuple's FIRST element is taken as
  the latitude and rejected outside [-90, 90] (ValueError), the SECOND as
  the longitude and normalised into (-180, 180].
-/

namespace WeMeetBot

/-- Python runtime errors that the embedded code can raise. -/
inductive PyErr where
  | keyError : PyErr
  | valueError : PyErr
  | indexError : PyErr
  | attributeError : PyErr
  deriving DecidableEq, Repr

instance {ε α : Type} [DecidableEq ε] [DecidableEq α] : DecidableEq (Except ε α) :=
  fun a b =>
    match a, b with
    | .error e, .error f =>
      if h : e = f then .isTrue (by rw [h]) else .isFalse (by intro hc; cases hc; exact h rfl)
    | .ok x, .ok y =>
      if h : x = y then .isTrue (by rw [h]) else .isFalse (by intro hc; cases hc; exact h rfl)
    | .error _, .ok _ => .isFalse (by intro hc; cases hc)
    | .ok _, .error _ => .isFalse (by intro hc; cases hc)

/-- Python `str.upper()` (over the string's characters, so that concrete
instances evaluate inside the kernel). -/
def pyUpper (s : String) : String :=
  String.mk (s.toList.map Char.toUpper)

/-- Python `str.split(sep)` for a single-character separator: split on
every occurrence, keeping empty pieces (`"".split(",") == [""]`). -/
def splitCommaAux : List Char → List Char → List String
  | [], acc => [String.mk acc.reverse]
  | c :: rest, acc =>
    if c = ',' then String.mk acc.reverse :: splitCommaAux rest []
    else splitCommaAux rest (c :: acc)

/-- Calendar part of a `datetime` (as returned by `datetime.utcnow()`).
`refresh_members` compares only the `day` field (day of month). -/
structure PyDate where
  year : Nat
  month : Nat
  day : Nat
  deriving DecidableEq, Repr

/-- A GPS location dict `\x7b'longitude': ..., 'latitude': ...\x7d` as held in the
in-memory `members` dictionary and in Telegram location payloads. -/
structure Loc where
  longitude : ℚ
  latitude : ℚ
  deriving DecidableEq, Repr

/-- A `datastore.helpers.GeoPoint(latitude, longitude)` as stored on a
Member entity's `location` property. -/
structure DsGeoPoint where
  latitude : ℚ
  longitude : ℚ
  deriving DecidableEq, Repr

/-- A `geopy.Point` after validation/normalisation. -/
structure GeopyPoint where
  latitude : ℚ
  longitude : ℚ
  deriving DecidableEq, Repr

/-- A durable `Member` entity: key name plus the properties written by
`db_upsert_member`. -/
structure MemberEntity where
  name : String
  selected_org : String
  travel_radius : String
  location : DsGeoPoint
  created_dttm : PyDate
  deriving DecidableEq, Repr

/-- A durable `Organization` entity: key name plus its `members` property. -/
structure OrgEntity where
  name : String
  members : List String
  deriving DecidableEq, Repr

/-- The value held in the in-memory `members` dictionary for one user.
The Python value is a dict that acquires the keys `selected_org`,
`travel_radius`, `location` one by one; a missing key is `none`. -/
structure MemberInfo where
  selected_org : Option String := none
  travel_radius : Option String := none
  location : Option Loc := none
  deriving DecidableEq, Repr

/-- Datastore calls, logged in order of execution. -/
inductive StoreCall where
  | queryMembers : StoreCall
  | queryOrgs : StoreCall
  | putMember (name : String) : StoreCall
  | putOrg (name : String) : StoreCall
  | deleteMembers (names : List String) : StoreCall
  | deleteOrgs (names : List String) : StoreCall
  deriving DecidableEq, Repr

/-- The durable store: all entities of the two kinds, keyed by name. -/
structure Store where
  memberEntities : List MemberEntity
  orgEntities : List OrgEntity
  deriving DecidableEq, Repr

/-- The whole world the handlers act on: the durable store, the two global
in-memory dictionaries, the trace of datastore calls, and the outbound
replies (opaque markers, per the spec's fire-and-forget transport). -/
structure World where
  store : Store
  organizations : List (String × List String)
  members : List (String × MemberInfo)
  storeCalls : List StoreCall := []
  replies : List String := []
  deriving DecidableEq, Repr

namespace Dict

/-- Python dict lookup `d[k]` / `d.get(k)` (first match; keys are unique in
any dict the code builds). -/
def get (d : List (String × α)) (k : String) : Option α :=
  match d with
  | [] => none
  | p :: t => if p.1 = k then some p.2 else get t k

/-- Python `k in d`. -/
def hasKey (d : List (String × α)) (k : String) : Bool :=
  d.any (fun p => p.1 = k)

/-- Python dict assignment `d[k] = v`: replace the value of an existing key
in place, otherwise append, preserving insertion order. -/
def upsert (d : List (String × α)) (k : String) (v : α) : List (String × α) :=
  if hasKey d k then
    d.map (fun p => if p.1 = k then (k, v) else p)
  else
    d ++ [(k, v)]

end Dict


/-- Python `float(s)` as applied to the radius strings the code stores:
every radius that reaches the store passed `str.isdigit()`, so decimal
natural notation is the only live case; anything else raises `ValueError`
just as `float` does. -/
def pyFloat (s : String) : Except PyErr ℚ :=
  if s.toList ≠ [] ∧ s.toList.all Char.isDigit then
    .ok ((s.toList.foldl (fun n c => 10 * n + (c.toNat - 48)) 0 : Nat) : ℚ)
  else .error .valueError

/-- Python `str.isdigit()`: nonempty and all digits. -/
def pyIsdigit (s : String) : Bool :=
  !s.toList.isEmpty && s.toList.all Char.isDigit

/-- `geopy`'s longitude normalisation `_normalize_angle`: reduce modulo 360
into `[0, 360)`, then shift into `(-180, 180]`. -/
def normAngle (x : ℚ) : ℚ :=
  let r := x - 360 * ⌊x / 360⌋
  if r > 180 then r - 360 else r

/-- Construction of a `geopy.Point` from a 2-tuple: the FIRST component is
taken as the latitude and rejected with `ValueError` when `|lat| > 90`;
the SECOND is taken as the longitude and normalised. -/
def geopy_point (latArg longArg : ℚ) : Except PyErr GeopyPoint :=
  if 90 < |latArg| then .error .valueError
  else .ok ⟨latArg, normAngle longArg⟩

/-- `compute_distance(location_a, location_b)`: the code builds the tuples
`loc_a = (location_a.longitude, location_a.latitude)` (longitude FIRST) and
hands them to `geopy.distance.distance`, whose point construction reads the
first tuple component as the latitude. The ellipsoidal geodesic formula
itself is the opaque parameter `geo`. -/
def compute_distance (geo : GeopyPoint → GeopyPoint → ℚ) (location_a location_b : Loc) :
    Except PyErr ℚ :=
  match geopy_point location_a.longitude location_a.latitude with
  | .error e => .error e
  | .ok pa =>
    match geopy_point location_b.longitude location_b.latitude with
    | .error e => .error e
    | .ok pb => .ok (geo pa pb)

/-- Datastore `put` of a Member entity: replace the entity with the same key
name, else append. -/
def putMemberEntity (l : List MemberEntity) (e : MemberEntity) : List MemberEntity :=
  if l.any (fun x => x.name = e.name) then
    l.map (fun x => if x.name = e.name then e else x)
  else l ++ [e]

/-- Datastore `put` of an Organization entity. -/
def putOrgEntity (l : List OrgEntity) (e : OrgEntity) : List OrgEntity :=
  if l.any (fun x => x.name = e.name) then
    l.map (fun x => if x.name = e.name then e else x)
  else l ++ [e]

/-- `db_upsert_member`: writes a Member entity carrying ALL of
`selected_org`, `travel_radius`, `location` (as `GeoPoint(latitude,
longitude)`) and `created_dttm = datetime.utcnow()`. -/
def db_upsert_member (w : World) (now : PyDate)
    (username selected_org travel_radius : String) (location : Loc) : World :=
  let e : MemberEntity :=
    ⟨username, selected_org, travel_radius, ⟨location.latitude, location.longitude⟩, now⟩
  { w with
    store := { w.store with memberEntities := putMemberEntity w.store.memberEntities e },
    storeCalls := w.storeCalls ++ [.putMember username] }

/-- `db_upsert_org`: writes an Organization entity with the given members. -/
def db_upsert_org (w : World) (org_cd : String) (org_members : List String) : World :=
  { w with
    store := { w.store with orgEntities := putOrgEntity w.store.orgEntities ⟨org_cd, org_members⟩ },
    storeCalls := w.storeCalls ++ [.putOrg org_cd] }

/-- Append an outbound reply (reply_text or send_message). -/
def reply (w : World) (msg : String) : World :=
  { w with replies := w.replies ++ [msg] }

/-- The three guarded field assignments of `update_daily_active_user`: set
each of `selected_org`, `travel_radius`, `location` on the member's dict
entry when the corresponding argument is truthy. -/
def applyUpdates (mi0 : MemberInfo) (selected_org travel_radius : Option String)
    (location : Option Loc) : MemberInfo :=
  let mi := match selected_org with
    | some s => if s ≠ "" then { mi0 with selected_org := some s } else mi0
    | none => mi0
  let mi := match travel_radius with
    | some s => if s ≠ "" then { mi with travel_radius := some s } else mi
    | none => mi
  match location with
  | some l => { mi with location := some l }
  | none => mi

/-- The dictionary-mutation half of `update_daily_active_user`: for a
truthy username, ensure the member's dict entry exists and set each of the
three fields whose argument is truthy; a falsy username only logs an
error. -/
def update_members_dict (w : World) (username : String)
    (selected_org : Option String) (travel_radius : Option String) (location : Option Loc) :
    World :=
  if username ≠ "" then
    let w' := if Dict.hasKey w.members username then w
              else { w with members := Dict.upsert w.members username {} }
    let mi := applyUpdates ((Dict.get w'.members username).getD {})
                selected_org travel_radius location
    { w' with members := Dict.upsert w'.members username mi }
  else w

/-- `update_daily_active_user(username, selected_org, travel_radius,
location)`: mutate the `members` dictionary, then evaluate
`members[username]` unconditionally (raising `KeyError` when the key is
absent, e.g. after a falsy username) and persist the Member record exactly
when all three of the member's dict keys are present. -/
def update_daily_active_user (w : World) (now : PyDate) (username : String)
    (selected_org : Option String) (travel_radius : Option String) (location : Option Loc) :
    Except PyErr World :=
  let w1 := update_members_dict w username selected_org travel_radius location
  match Dict.get w1.members username with
  | none => .error .keyError
  | some mi =>
    if mi.selected_org.isSome && mi.travel_radius.isSome && mi.location.isSome then
      .ok (db_upsert_member w1 now username (mi.selected_org.getD "")
            (mi.travel_radius.getD "") (mi.location.getD ⟨0, 0⟩))
    else .ok w1

/-- Decoding of a durable Member entity into the in-memory `members` shape,
as done inside the `refresh_members` loop. -/
def memberInfoOfEntity (e : MemberEntity) : MemberInfo :=
  { selected_org := some e.selected_org,
    travel_radius := some e.travel_radius,
    location := some ⟨e.location.longitude, e.location.latitude⟩ }

/-- `refresh_members()`: reset the `members` dict, keep entities whose
`created_dttm.day` (DAY OF MONTH) equals today's, and delete the rest from
the store (`delete_multi`, skipped when the deletion list is empty). -/
def refresh_members (w : World) (now : PyDate) : World :=
  let entities := w.store.memberEntities
  let kept := entities.filter (fun e => e.created_dttm.day == now.day)
  let stale := entities.filter (fun e => !(e.created_dttm.day == now.day))
  let newMembers := kept.foldl (fun d e => Dict.upsert d e.name (memberInfoOfEntity e)) []
  let w1 := { w with members := newMembers, storeCalls := w.storeCalls ++ [.queryMembers] }
  if 0 < stale.length then
    { w1 with
      store := { w1.store with
        memberEntities := entities.filter (fun e => !(stale.map (fun s => s.name)).contains e.name) },
      storeCalls := w1.storeCalls ++ [.deleteMembers (stale.map (fun s => s.name))] }
  else w1

/-- The parse of the `AUTHORIZED_ORGS` environment value: uppercase, then
split on commas. -/
def authorizedList (authorized_env : String) : List String :=
  splitCommaAux (pyUpper authorized_env).toList []

/-- `refresh_organizations()`: parse `AUTHORIZED_ORGS` (uppercased,
comma-separated), keep authorized Organization entities in the dict, delete
the unauthorized ones from the store, then - only when the dict has fewer
keys than the authorized list has elements - add an empty member list for
each authorized name still missing. -/
def refresh_organizations (w : World) (authorized_env : String) : World :=
  let authorized_orgs := authorizedList authorized_env
  let entities := w.store.orgEntities
  let kept := entities.filter (fun e => authorized_orgs.contains e.name)
  let removed := entities.filter (fun e => !authorized_orgs.contains e.name)
  let orgs0 := kept.foldl (fun d e => Dict.upsert d e.name e.members) []
  let w1 := { w with organizations := orgs0, storeCalls := w.storeCalls ++ [.queryOrgs] }
  let w2 :=
    if 0 < removed.length then
      { w1 with
        store := { w1.store with
          orgEntities := entities.filter (fun e => !(removed.map (fun r => r.name)).contains e.name) },
        storeCalls := w1.storeCalls ++ [.deleteOrgs (removed.map (fun r => r.name))] }
    else w1
  if w2.organizations.length < authorized_orgs.length then
    { w2 with
      organizations := authorized_orgs.foldl (fun d org_code =>
        if Dict.hasKey d org_code then d else Dict.upsert d org_code []) w2.organizations }
  else w2

/-- `build_distance_selector`: sends the 1-4 km inline keyboard, only when
the update carries a message. -/
def build_distance_selector (w : World) (has_message : Bool) : World :=
  if has_message then reply w "distance selector" else w

/-- `add_new_user(update)`: uppercase the message text as the proposed
organization name (raising `AttributeError` on a `None` text, as
`.upper()` would); reject a missing username with a prompt; on an
authorized organization, append the username to the org's member list,
persist the Group record, record the selection via
`update_daily_active_user`, and show the distance selector; otherwise
prompt for the organization name. -/
def add_new_user (w : World) (now : PyDate) (text : Option String) (username : String) :
    Except PyErr World :=
  match text with
  | none => .error .attributeError
  | some t =>
    let selected_org := pyUpper t
    if username = "" then
      .ok (reply w "username required")
    else if Dict.hasKey w.organizations selected_org then
      let org_members := (Dict.get w.organizations selected_org).getD [] ++ [username]
      let w1 := { w with organizations := Dict.upsert w.organizations selected_org org_members }
      let w2 := db_upsert_org w1 selected_org org_members
      match update_daily_active_user w2 now username (some selected_org) none none with
      | .error e => .error e
      | .ok w3 => .ok (build_distance_selector (reply w3 "added to organization") true)
    else
      .ok (reply w "enter organization name")

/-- `inline_keyboard_handler(update)`: a digit callback records the travel
radius and asks for the location; anything else only logs a warning. -/
def inline_keyboard_handler (w : World) (now : PyDate) (query_data username : String) :
    Except PyErr World :=
  if pyIsdigit query_data then
    match update_daily_active_user w now username none (some query_data) none with
    | .error e => .error e
    | .ok w1 => .ok (reply (reply w1 "radius selected") "share location request")
  else .ok w

/-- The candidate loop of `check_who_is_around`, in source order: skip the
requester, skip candidates absent from `members`, then compare the geodesic
distance of the two locations against `float` of the REQUESTER's
`travel_radius`. Any missing dict key raises `KeyError` at that point. -/
def who_loop (geo : GeopyPoint → GeopyPoint → ℚ) (w : World) (current_username : String)
    (cur : MemberInfo) : List String → Except PyErr (List String)
  | [] => .ok []
  | u :: rest =>
    if u ≠ current_username then
      match Dict.get w.members u with
      | some mu =>
        match cur.location with
        | none => .error .keyError
        | some la =>
          match mu.location with
          | none => .error .keyError
          | some lb =>
            match compute_distance geo la lb with
            | .error e => .error e
            | .ok d =>
              match cur.travel_radius with
              | none => .error .keyError
              | some rs =>
                match pyFloat rs with
                | .error e => .error e
                | .ok r =>
                  if d ≤ r then
                    match who_loop geo w current_username cur rest with
                    | .error e => .error e
                    | .ok tail => .ok (("@" ++ u) :: tail)
                  else who_loop geo w current_username cur rest
      | none => who_loop geo w current_username cur rest
    else who_loop geo w current_username cur rest

/-- `check_who_is_around(update)`: look the requester up in `members`, read
their selected org, iterate over that org's member list and reply with the
nearby handles (also returned here for specification purposes). -/
def check_who_is_around (geo : GeopyPoint → GeopyPoint → ℚ) (w : World)
    (current_username : String) : Except PyErr (World × List String) :=
  match Dict.get w.members current_username with
  | none => .error .keyError
  | some cur =>
    match cur.selected_org with
    | none => .error .keyError
    | some selected_org =>
      let usernames_in_the_org := (Dict.get w.organizations selected_org).getD []
      match who_loop geo w current_username cur usernames_in_the_org with
      | .error e => .error e
      | .ok users_nearby =>
        if 0 < users_nearby.length then
          .ok (reply w "members near you", users_nearby)
        else
          .ok (reply w "no one around", users_nearby)

/-- `get_message_age(message)`: milliseconds since the message's `date`
(or `edit_date` when set). Timestamps are absolute seconds. -/
def get_message_age (nowSec : ℤ) (date : ℤ) (edit_date : Option ℤ) : ℤ :=
  let event_time := match edit_date with | some t => t | none => date
  (nowSec - event_time) * 1000

/-- `timeout(update, message)`: `False` when the age is under 10000 ms,
`True` (drop) otherwise. -/
def timeout (nowSec : ℤ) (date : ℤ) (edit_date : Option ℤ) : Bool :=
  if get_message_age nowSec date edit_date < 10000 then false else true

/-- `start(update)`: refresh organizations then members, take the FIRST
organization key (`IndexError` on an empty dict), and route the user to the
distance selector, the daily-active update, or registration. -/
def start (w : World) (env : String) (now : PyDate)
    (text : Option String) (username : String) : Except PyErr World :=
  let w1 := refresh_organizations w env
  let w2 := refresh_members w1 now
  match w2.organizations with
  | [] => .error .indexError
  | (org_code, _) :: _ =>
    if Dict.hasKey w2.members username then
      match Dict.get w2.members username with
      | none => .error .keyError
      | some mi =>
        match mi.selected_org with
        | none => .error .keyError
        | some s =>
          if s ≠ "" then .ok (build_distance_selector w2 true)
          else add_new_user w2 now text username
    else if ((Dict.get w2.organizations org_code).getD []).contains username then
      match update_daily_active_user w2 now username (some org_code) none none with
      | .error e => .error e
      | .ok w3 => .ok (build_distance_selector w3 true)
    else add_new_user w2 now text username

/-- A Telegram message as far as the webhook reads it; a missing
`from_user.username` is the empty string (both are falsy in the source). -/
structure TgMessage where
  date : ℤ
  edit_date : Option ℤ := none
  text : Option String := none
  location : Option Loc := none
  username : String := ""
  deriving DecidableEq, Repr

/-- A callback query: the pressed button's data, the originating message,
and the pressing user's username. -/
structure TgCallbackQuery where
  data : String
  message : TgMessage
  username : String := ""
  deriving DecidableEq, Repr

/-- An inbound update: at most one of a message or a callback query is
read. -/
structure TgUpdate where
  message : Option TgMessage := none
  callback_query : Option TgCallbackQuery := none
  deriving DecidableEq, Repr

/-- A flask request: HTTP method plus the decoded update. -/
structure Request where
  method : String
  update : TgUpdate
  deriving DecidableEq, Repr

/-- `webhook(request)`: POST only; stale events are answered `Timeout`
before any handler or store call; messages route to `/start`, `/help`,
location submission, or registration; callback queries route to the inline
keyboard handler. -/
def webhook (geo : GeopyPoint → GeopyPoint → ℚ) (w : World) (env : String)
    (nowSec : ℤ) (now : PyDate) (req : Request) : Except PyErr (World × String) :=
  if req.method = "POST" then
    match req.update.message with
    | some m =>
      if timeout nowSec m.date m.edit_date then .ok (w, "Timeout")
      else if m.text = some "/start" then
        match start w env now m.text m.username with
        | .error e => .error e
        | .ok w1 => .ok (w1, "ok")
      else if m.text = some "/help" then
        .ok (reply w "help text", "ok")
      else
        match m.location with
        | some loc =>
          match update_daily_active_user w now m.username none none (some loc) with
          | .error e => .error e
          | .ok w1 =>
            match check_who_is_around geo w1 m.username with
            | .error e => .error e
            | .ok (w2, _) => .ok (w2, "ok")
        | none =>
          match add_new_user w now m.text m.username with
          | .error e => .error e
          | .ok w1 => .ok (w1, "ok")
    | none =>
      match req.update.callback_query with
      | some q =>
        if timeout nowSec q.message.date q.message.edit_date then .ok (w, "Timeout")
        else
          match inline_keyboard_handler w now q.data q.username with
          | .error e => .error e
          | .ok w1 => .ok (w1, "ok")
      | none => .ok (w, "error")
  else .ok (w, "error")

/-- The `members` dictionary that `refresh_members` builds: the decoded
entities whose `created_dttm.day` equals today's day of month, in scan
order. -/
def membersFromStore (entities : List MemberEntity) (now : PyDate) :
    List (String × MemberInfo) :=
  (entities.filter (fun e => e.created_dttm.day == now.day)).foldl
    (fun d e => Dict.upsert d e.name (memberInfoOfEntity e)) []

/-- The organizations dictionary as `refresh_organizations` leaves it:
the authorized entities' member lists, padded with empty member lists when
(and only when) the dict has fewer keys than the authorized list has
elements. -/
def orgsIndexAfter (w : World) (env : String) : List (String × List String) :=
  let L := authorizedList env
  let orgs0 := (w.store.orgEntities.filter (fun e => L.contains e.name)).foldl
    (fun d e => Dict.upsert d e.name e.members) []
  if orgs0.length < L.length then
    L.foldl (fun d code => if Dict.hasKey d code then d else Dict.upsert d code []) orgs0
  else orgs0

/-- The Organization entities as `refresh_organizations` leaves them in the
store: the unauthorized ones deleted (when there are any). -/
def orgEntitiesAfter (w : World) (env : String) : List OrgEntity :=
  let L := authorizedList env
  let removed := w.store.orgEntities.filter (fun e => !L.contains e.name)
  if 0 < removed.length then
    w.store.orgEntities.filter (fun e => !(removed.map (fun r => r.name)).contains e.name)
  else w.store.orgEntities

/-- The per-candidate test of `check_who_is_around`'s loop: not the
requester, present in `members`, and within `float` of the REQUESTER's
`travel_radius` of the requester's location. -/
def nearby_pred (geo : GeopyPoint → GeopyPoint → ℚ) (w : World) (current_username : String)
    (cur : MemberInfo) (u : String) : Bool :=
  (u != current_username) &&
  (match Dict.get w.members u with
   | none => false
   | some mu =>
     match cur.location, mu.location, cur.travel_radius with
     | some la, some lb, some rs =>
       (match compute_distance geo la lb, pyFloat rs with
        | .ok d, .ok r => decide (d ≤ r)
        | _, _ => false)
     | _, _, _ => false)

/-- A geodesic stub that returns 0 km for every pair of points. -/
def geoZero : GeopyPoint → GeopyPoint → ℚ := fun _ _ => 0

/-- A geodesic stub that returns 3 km for every pair of points. -/
def geoConst3 : GeopyPoint → GeopyPoint → ℚ := fun _ _ => 3

/-- A store holding one Member record created 2026-09-12: a month older
than the session date 2026-10-12, but with the same day of month. -/
def staleDayWorld : World :=
  ⟨⟨[⟨"dave", "ACME", "3", ⟨10, 10⟩, ⟨2026, 9, 12⟩⟩], []⟩, [], [], [], []⟩

/-- A store holding a Member record of the unauthorized organization
"OTHER", created on the session date 2026-10-12, plus OTHER's Group
record. -/
def unauthorizedMemberWorld : World :=
  ⟨⟨[⟨"carol", "OTHER", "2", ⟨10, 10⟩, ⟨2026, 10, 12⟩⟩], [⟨"OTHER", ["carol"]⟩]⟩,
   [], [], [], []⟩

/-- Members X (radius 5 km) and Y (radius 1 km) of the same organization,
both query-ready. -/
def asymWorld : World :=
  ⟨⟨[], []⟩, [("ACME", ["X", "Y"])],
   [("X", ⟨some "ACME", some "5", some ⟨10, 10⟩⟩),
    ("Y", ⟨some "ACME", some "1", some ⟨10, 11⟩⟩)], [], []⟩

/-- Member alice with organization and radius selected but no location
yet. -/
def aliceWorld : World :=
  ⟨⟨[], []⟩, [("ACME", ["alice"])], [("alice", ⟨some "ACME", some "2", none⟩)], [], []⟩

/-- A world with no members and no organizations. -/
def emptyWorld : World := ⟨⟨[], []⟩, [], [], [], []⟩

/-- A fresh POST request submitting a location, from a user without a
username. -/
def locRequestNoUser : Request :=
  ⟨"POST", ⟨some ⟨0, none, none, some ⟨10, 10⟩, ""⟩, none⟩⟩

/-- A POST request carrying a text message sent at time 0 (so 15 s old
when received at time 15). -/
def staleMsgRequest : Request :=
  ⟨"POST", ⟨some ⟨0, none, some "/start", none, "alice"⟩, none⟩⟩

/-- Organization ACME with alice already enrolled, mirrored in the store. -/
def acmeAliceWorld : World :=
  ⟨⟨[], [⟨"ACME", ["alice"]⟩]⟩, [("ACME", ["alice"])], [], [], []⟩

/-- A store containing member eve (created today); in memory, bob has an
organization and a radius but no location. -/
def bobWorld : World :=
  ⟨⟨[⟨"eve", "ACME", "2", ⟨10, 10⟩, ⟨2026, 10, 12⟩⟩], []⟩, [],
   [("bob", ⟨some "ACME", some "2", none⟩)], [], []⟩

/-- `aliceWorld` after alice submits location (10, 10): the now-complete
record is persisted. -/
def aliceWorldAfter : World :=
  ⟨⟨[⟨"alice", "ACME", "2", ⟨10, 10⟩, ⟨2026, 10, 12⟩⟩], []⟩,
   [("ACME", ["alice"])],
   [("alice", ⟨some "ACME", some "2", some ⟨10, 10⟩⟩)],
   [.putMember "alice"], []⟩

/-- `bobWorld` after bob picks radius 3: still no location, so nothing is
persisted. -/
def bobWorldAfter : World :=
  ⟨⟨[⟨"eve", "ACME", "2", ⟨10, 10⟩, ⟨2026, 10, 12⟩⟩], []⟩, [],
   [("bob", ⟨some "ACME", some "3", none⟩)], [], []⟩

namespace Dict

theorem get_isSome_iff_hasKey (d : List (String × α)) (k : String) :
    (get d k).isSome = hasKey d k := by
  induction d with
  | nil => rfl
  | cons p t ih =>
    by_cases h : p.1 = k
    · simp [get, hasKey, h]
    · simp [get, hasKey, h, ih]

theorem keys_upsert (d : List (String × α)) (k : String) (v : α) :
    (upsert d k v).map Prod.fst =
      if hasKey d k then d.map Prod.fst else d.map Prod.fst ++ [k] := by
  unfold upsert
  by_cases h : hasKey d k
  · simp only [h, if_true, List.map_map]
    congr 1
    funext p
    by_cases hp : p.1 = k <;> simp [hp]
  · simp [h]

theorem nodup_keys_upsert (d : List (String × α)) (k : String) (v : α)
    (h : (d.map Prod.fst).Nodup) : ((upsert d k v).map Prod.fst).Nodup := by
  rw [keys_upsert]
  by_cases hk : hasKey d k
  · simpa [hk] using h
  · simp only [hk, Bool.false_eq_true, if_false]
    rw [List.nodup_append]
    refine ⟨h, List.nodup_singleton k, ?_⟩
    intro a ha hb
    simp only [List.mem_singleton] at hb
    subst hb
    simp only [hasKey, List.any_eq_true, decide_eq_true_eq] at hk
    rcases List.mem_map.mp ha with ⟨p, hp, hpk⟩
    exact hk ⟨p, hp, hpk⟩

theorem get_upsert_self (d : List (String × α)) (k : String) (v : α) :
    get (upsert d k v) k = some v := by
  unfold upsert
  by_cases h : hasKey d k
  · simp only [h, if_true]
    simp only [hasKey, List.any_eq_true, decide_eq_true_eq] at h
    induction d with
    | nil => simp at h
    | cons p t ih =>
      by_cases hp : p.1 = k
      · simp [get, hp]
      · rcases h with ⟨q, hq, hqk⟩
        simp only [List.mem_cons] at hq
        rcases hq with rfl | hq
        · exact absurd hqk hp
        · simp only [List.map_cons, if_neg hp, get, hp, if_false]
          exact ih ⟨q, hq, hqk⟩
  · simp only [h, if_false]
    simp only [hasKey, List.any_eq_true, decide_eq_true_eq, not_exists, not_and] at h
    induction d with
    | nil => simp [get]
    | cons p t ih =>
      have hp : p.1 ≠ k := h p (List.mem_cons_self p t)
      simp only [List.cons_append, get, hp, if_false]
      exact ih (fun q hq => h q (List.mem_cons_of_mem p hq))

theorem get_map_overwrite (d : List (String × α)) (k k' : String) (v : α)
    (h : k' ≠ k) :
    get (d.map (fun p => if p.1 = k then (k, v) else p)) k' = get d k' := by
  induction d with
  | nil => rfl
  | cons p t ih =>
    by_cases hp : p.1 = k
    · have hpk' : p.1 ≠ k' := by rw [hp]; exact Ne.symm h
      simp only [List.map_cons, if_pos hp, get]
      rw [if_neg (Ne.symm h), if_neg hpk']
      exact ih
    · by_cases hp' : p.1 = k'
      · simp only [List.map_cons, if_neg hp, get, if_pos hp']
      · simp only [List.map_cons, if_neg hp, get, if_neg hp']
        exact ih

theorem get_append_single (d : List (String × α)) (k k' : String) (v : α)
    (h : k' ≠ k) : get (d ++ [(k, v)]) k' = get d k' := by
  induction d with
  | nil => simp [get, Ne.symm h]
  | cons p t ih =>
    by_cases hp' : p.1 = k'
    · simp [get, hp']
    · simp [get, hp', ih]

theorem get_upsert_ne (d : List (String × α)) (k k' : String) (v : α)
    (h : k' ≠ k) : get (upsert d k v) k' = get d k' := by
  unfold upsert
  by_cases hk : hasKey d k
  · simp only [hk, if_true]
    exact get_map_overwrite d k k' v h
  · simp only [hk, Bool.false_eq_true, if_false]
    exact get_append_single d k k' v h

/-- Membership of a key in an upserted dict. -/
theorem hasKey_upsert (d : List (String × α)) (k k' : String) (v : α) :
    hasKey (upsert d k v) k' = (hasKey d k' || k' = k) := by
  have h1 := get_isSome_iff_hasKey (upsert d k v) k'
  by_cases h : k' = k
  · subst h
    rw [← h1, get_upsert_self]
    simp
  · rw [← h1, get_upsert_ne d k k' v h, get_isSome_iff_hasKey]
    simp [h]

theorem hasKey_iff_mem_keys (d : List (String × α)) (k : String) :
    hasKey d k = true ↔ k ∈ d.map Prod.fst := by
  simp only [hasKey, List.any_eq_true, decide_eq_true_eq, List.mem_map]

theorem hasKey_foldl_upsert {β : Type} (f : β → String) (g : β → α)
    (l : List β) (d : List (String × α)) (k : String) :
    hasKey (l.foldl (fun d' e => upsert d' (f e) (g e)) d) k
      = (hasKey d k || l.any (fun e => f e = k)) := by
  induction l generalizing d with
  | nil => simp
  | cons e t ih =>
    simp only [List.foldl_cons, List.any_cons]
    rw [ih, hasKey_upsert]
    by_cases hk : k = f e <;> by_cases hd : hasKey d k <;> simp [hk, hd, eq_comm]

theorem nodup_keys_foldl_upsert {β : Type} (f : β → String) (g : β → α)
    (l : List β) (d : List (String × α)) (h : (d.map Prod.fst).Nodup) :
    ((l.foldl (fun d' e => upsert d' (f e) (g e)) d).map Prod.fst).Nodup := by
  induction l generalizing d with
  | nil => exact h
  | cons e t ih => exact ih _ (nodup_keys_upsert _ _ _ h)

theorem get_foldl_upsert_mem {β : Type} (f : β → String) (g : β → α)
    (l : List β) (d : List (String × α)) (k : String) (v : α)
    (h : get (l.foldl (fun d' e => upsert d' (f e) (g e)) d) k = some v) :
    (∃ e ∈ l, f e = k ∧ v = g e) ∨ get d k = some v := by
  induction l generalizing d with
  | nil => right; exact h
  | cons e t ih =>
    simp only [List.foldl_cons] at h
    rcases ih _ h with ⟨e', he', hfk, hv⟩ | hd
    · exact Or.inl ⟨e', List.mem_cons_of_mem _ he', hfk, hv⟩
    · by_cases hk : k = f e
      · subst hk
        rw [get_upsert_self] at hd
        exact Or.inl ⟨e, List.mem_cons_self e t, rfl, (Option.some_injective _ hd).symm⟩
      · rw [get_upsert_ne d (f e) k (g e) hk] at hd
        exact Or.inr hd

theorem hasKey_fill (v0 : α) (L : List String) (d : List (String × α)) (k : String) :
    hasKey (L.foldl (fun d' code => if hasKey d' code then d' else upsert d' code v0) d) k
      = (hasKey d k || L.contains k) := by
  induction L generalizing d with
  | nil => simp
  | cons c t ih =>
    simp only [List.foldl_cons, List.contains_cons]
    rw [ih]
    by_cases hc : hasKey d c
    · by_cases hkc : k = c
      · subst hkc; simp [hc]
      · have hb : (k == c) = false := by simp [hkc]
        simp [hc, hkc, hb]
    · simp only [hc, Bool.false_eq_true, if_false]
      rw [hasKey_upsert]
      by_cases hkc : k = c
      · subst hkc; simp
      · have hb : (k == c) = false := by simp [hkc]
        simp [hkc, hb]

end Dict

theorem update_members_dict_store (w : World) (username : String)
    (so tr : Option String) (loc : Option Loc) :
    (update_members_dict w username so tr loc).store = w.store := by
  unfold update_members_dict
  split
  · split <;> rfl
  · rfl

theorem update_members_dict_organizations (w : World) (username : String)
    (so tr : Option String) (loc : Option Loc) :
    (update_members_dict w username so tr loc).organizations = w.organizations := by
  unfold update_members_dict
  split
  · split <;> rfl
  · rfl

theorem update_members_dict_storeCalls (w : World) (username : String)
    (so tr : Option String) (loc : Option Loc) :
    (update_members_dict w username so tr loc).storeCalls = w.storeCalls := by
  unfold update_members_dict
  split
  · split <;> rfl
  · rfl

theorem db_upsert_member_members (w : World) (now : PyDate)
    (username so tr : String) (loc : Loc) :
    (db_upsert_member w now username so tr loc).members = w.members := rfl

theorem db_upsert_member_memberEntities (w : World) (now : PyDate)
    (username so tr : String) (loc : Loc) :
    (db_upsert_member w now username so tr loc).store.memberEntities
      = putMemberEntity w.store.memberEntities
          ⟨username, so, tr, ⟨loc.latitude, loc.longitude⟩, now⟩ := rfl

theorem db_upsert_member_storeCalls (w : World) (now : PyDate)
    (username so tr : String) (loc : Loc) :
    (db_upsert_member w now username so tr loc).storeCalls
      = w.storeCalls ++ [StoreCall.putMember username] := rfl

theorem refresh_members_members (w : World) (now : PyDate) :
    (refresh_members w now).members = membersFromStore w.store.memberEntities now := by
  unfold refresh_members membersFromStore
  dsimp only
  split <;> rfl

theorem refresh_organizations_memberEntities (w : World) (env : String) :
    (refresh_organizations w env).store.memberEntities = w.store.memberEntities := by
  unfold refresh_organizations
  dsimp only
  split <;> split <;> rfl

theorem refresh_organizations_organizations (w : World) (env : String) :
    (refresh_organizations w env).organizations = orgsIndexAfter w env := by
  unfold refresh_organizations orgsIndexAfter
  dsimp only
  split <;> split <;> rfl

theorem refresh_organizations_orgEntities (w : World) (env : String) :
    (refresh_organizations w env).store.orgEntities = orgEntitiesAfter w env := by
  unfold refresh_organizations orgEntitiesAfter
  dsimp only
  split <;> split <;> rfl

theorem applyUpdates_location_none (mi0 : MemberInfo) (so tr : Option String) :
    (applyUpdates mi0 so tr none).location = mi0.location := by
  unfold applyUpdates
  rcases so with _ | s <;> rcases tr with _ | t
  · rfl
  · dsimp only
    split <;> rfl
  · dsimp only
    split <;> rfl
  · dsimp only
    split <;> split <;> rfl

theorem update_members_dict_get_self (w : World) (username : String)
    (so tr : Option String) (loc : Option Loc) (hu : username ≠ "") :
    Dict.get (update_members_dict w username so tr loc).members username
      = some (applyUpdates ((Dict.get w.members username).getD {}) so tr loc) := by
  unfold update_members_dict
  rw [if_pos hu]
  dsimp only
  by_cases hk : Dict.hasKey w.members username = true
  · rw [if_pos hk, Dict.get_upsert_self]
  · rw [if_neg hk]
    dsimp only
    have hnone : Dict.get w.members username = none := by
      have hiff := Dict.get_isSome_iff_hasKey w.members username
      rcases hg : Dict.get w.members username with _ | v
      · rfl
      · rw [hg] at hiff
        simp only [Option.isSome_some] at hiff
        exact absurd hiff.symm hk
    rw [Dict.get_upsert_self, Dict.get_upsert_self, hnone]
    rfl

theorem update_members_dict_of_empty_username (w : World)
    (so tr : Option String) (loc : Option Loc) :
    update_members_dict w "" so tr loc = w := by
  unfold update_members_dict
  simp

theorem membersFromStore_get_some (entities : List MemberEntity) (now : PyDate)
    (u : String) (mi : MemberInfo)
    (h : Dict.get (membersFromStore entities now) u = some mi) :
    ∃ e ∈ entities, e.name = u ∧ e.created_dttm.day = now.day ∧ mi = memberInfoOfEntity e := by
  unfold membersFromStore at h
  rcases Dict.get_foldl_upsert_mem _ _ _ _ _ _ h with ⟨e, he, hname, hmi⟩ | hnil
  · refine ⟨e, (List.mem_filter.mp he).1, hname, ?_, hmi⟩
    have := (List.mem_filter.mp he).2
    simpa using this
  · simp [Dict.get] at hnil

theorem who_loop_ok_eq (geo : GeopyPoint → GeopyPoint → ℚ) (w : World)
    (current_username : String) (cur : MemberInfo) (l res : List String)
    (h : who_loop geo w current_username cur l = .ok res) :
    res = (l.filter (nearby_pred geo w current_username cur)).map
            (fun u => "@" ++ u) := by
  induction l generalizing res with
  | nil =>
    simp only [who_loop] at h
    injection h with h
    simp [← h]
  | cons u rest ih =>
    simp only [who_loop] at h
    by_cases hu : u ≠ current_username
    · rw [if_pos hu] at h
      rcases hmu : Dict.get w.members u with _ | mu
      · rw [hmu] at h
        dsimp only at h
        have hpred : nearby_pred geo w current_username cur u = false := by
          unfold nearby_pred
          rw [hmu]
          simp
        simp only [List.filter_cons, hpred, Bool.false_eq_true, if_false]
        exact ih res h
      · rw [hmu] at h
        dsimp only at h
        rcases hla : cur.location with _ | la
        · rw [hla] at h; simp at h
        · rw [hla] at h
          dsimp only at h
          rcases hlb : mu.location with _ | lb
          · rw [hlb] at h; simp at h
          · rw [hlb] at h
            dsimp only at h
            rcases hcd : compute_distance geo la lb with e | d
            · rw [hcd] at h; simp at h
            · rw [hcd] at h
              dsimp only at h
              rcases hrs : cur.travel_radius with _ | rs
              · rw [hrs] at h; simp at h
              · rw [hrs] at h
                dsimp only at h
                rcases hpf : pyFloat rs with e | r
                · rw [hpf] at h; simp at h
                · rw [hpf] at h
                  dsimp only at h
                  have hpred : nearby_pred geo w current_username cur u
                      = decide (d ≤ r) := by
                    unfold nearby_pred
                    rw [hmu]
                    dsimp only
                    rw [hla, hlb, hrs]
                    dsimp only
                    rw [hcd, hpf]
                    simp [hu]
                  by_cases hd : d ≤ r
                  · rw [if_pos hd] at h
                    rcases hwl : who_loop geo w current_username cur rest with e | t
                    · rw [hwl] at h; simp at h
                    · rw [hwl] at h
                      dsimp only at h
                      injection h with h
                      subst h
                      have hdt : decide (d ≤ r) = true := decide_eq_true hd
                      simp only [List.filter_cons, hpred, hdt, if_true]
                      simp [ih t hwl]
                  · rw [if_neg hd] at h
                    have hdf : decide (d ≤ r) = false := decide_eq_false hd
                    simp only [List.filter_cons, hpred, hdf,
                      Bool.false_eq_true, if_false]
                    exact ih res h
    · rw [if_neg hu] at h
      push_neg at hu
      have hpred : nearby_pred geo w current_username cur u = false := by
        unfold nearby_pred
        simp [hu]
      simp only [List.filter_cons, hpred, Bool.false_eq_true, if_false]
      exact ih res h

theorem update_daily_active_user_ok (w : World) (now : PyDate) (username : String)
    (so tr : Option String) (loc : Option Loc) (hu : username ≠ "") :
    ∃ w', update_daily_active_user w now username so tr loc = .ok w' ∧
      w'.organizations = w.organizations := by
  unfold update_daily_active_user
  dsimp only
  rw [update_members_dict_get_self w username so tr loc hu]
  dsimp only
  split
  · exact ⟨_, rfl, update_members_dict_organizations w username so tr loc⟩
  · exact ⟨_, rfl, update_members_dict_organizations w username so tr loc⟩

theorem membersFromStore_absent (entities : List MemberEntity) (now : PyDate)
    (u : String) (h : ∀ e ∈ entities, e.name ≠ u) :
    Dict.get (membersFromStore entities now) u = none := by
  rcases hg : Dict.get (membersFromStore entities now) u with _ | mi
  · rfl
  · exfalso
    rcases membersFromStore_get_some entities now u mi hg with ⟨e, he, hname, -, -⟩
    exact h e he hname

/-- C1: the claim says a Member whose `createdAt` CALENDAR DATE differs
from today's is deleted and absent from presence after `refresh_members`.
The code compares only the DAY OF MONTH (`created_dttm.day == utcnow().day`),
so the record of 2026-09-12 survives a session on 2026-10-12 - it stays in
the durable store and is decoded into the presence map - although the two
calendar dates differ. -/
theorem refresh_members_keeps_month_old_record :
    ((⟨2026, 9, 12⟩ : PyDate) ≠ (⟨2026, 10, 12⟩ : PyDate)) ∧
    Dict.get (refresh_members staleDayWorld ⟨2026, 10, 12⟩).members "dave"
      = some ⟨some "ACME", some "3", some ⟨10, 10⟩⟩ ∧
    (refresh_members staleDayWorld ⟨2026, 10, 12⟩).store.memberEntities
      = staleDayWorld.store.memberEntities := by
  decide

/-- C4: the claim says latitudes outside [-90, 90] are rejected and
well-formed coordinates always produce a distance. The code passes
`(longitude, latitude)` tuples to a library that reads the first component
as the latitude, so the well-formed location with longitude 100 raises a
range `ValueError`, while the malformed location with latitude 91 is
accepted and produces a distance. -/
theorem compute_distance_validation_is_swapped :
    (((-180 : ℚ) ≤ 100 ∧ (100 : ℚ) ≤ 180) ∧ ((-90 : ℚ) ≤ 0 ∧ (0 : ℚ) ≤ 90)) ∧
    compute_distance geoZero ⟨100, 0⟩ ⟨0, 0⟩ = .error .valueError ∧
    ¬ ((91 : ℚ) ≤ 90) ∧
    compute_distance geoZero ⟨0, 91⟩ ⟨0, 0⟩ = .ok 0 := by
  decide

/-- C3 counterexample: carol's Member record names the unauthorized
organization OTHER and was created today; after `refresh_organizations`
(authorized list = ACME) and `refresh_members`, carol is present in the
`members` map although OTHER has no `organizations` entry - refuting
"no member whose selected group is absent from groupIndex appears in
presence". -/
theorem presence_keeps_member_of_unauthorized_org :
    Dict.get (refresh_members (refresh_organizations unauthorizedMemberWorld "ACME")
        ⟨2026, 10, 12⟩).members "carol"
      = some ⟨some "OTHER", some "2", some ⟨10, 10⟩⟩ ∧
    Dict.hasKey (refresh_members (refresh_organizations unauthorizedMemberWorld "ACME")
        ⟨2026, 10, 12⟩).organizations "OTHER" = false := by
  decide

/-- C8: a missing username is rejected before any lookup only on the
registration path (`add_new_user` replies and returns). On the radius path
(`inline_keyboard_handler`) and the location path (`webhook` with a
location payload), `update_daily_active_user` merely logs the error and
then evaluates `members[username]`, raising `KeyError` instead of a clean
rejection. -/
theorem missing_username_rejected_only_on_registration :
    add_new_user emptyWorld ⟨2026, 10, 12⟩ (some "ACME") ""
      = .ok (reply emptyWorld "username required") ∧
    inline_keyboard_handler emptyWorld ⟨2026, 10, 12⟩ "2" "" = .error .keyError ∧
    webhook geoZero emptyWorld "ACME" 0 ⟨2026, 10, 12⟩ locRequestNoUser
      = .error .keyError := by
  decide

/-- C2: a call of `update_daily_active_user` either performs no durable
Member write at all (store and call trace unchanged), or writes exactly the
member's in-memory record - and in that case all three of
`selected_org`, `travel_radius`, `location` are present on it. Every
durable Member write of the program goes through this function, so no
Member entity is ever persisted with a missing field. -/
theorem member_persisted_only_when_complete (w : World) (now : PyDate)
    (username : String) (so tr : Option String) (loc : Option Loc) (w' : World)
    (h : update_daily_active_user w now username so tr loc = .ok w') :
    (w'.store.memberEntities = w.store.memberEntities ∧ w'.storeCalls = w.storeCalls) ∨
    (∃ mi, Dict.get w'.members username = some mi ∧
      mi.selected_org.isSome = true ∧ mi.travel_radius.isSome = true ∧
      mi.location.isSome = true ∧
      w'.store.memberEntities
        = putMemberEntity w.store.memberEntities
            ⟨username, mi.selected_org.getD "", mi.travel_radius.getD "",
             ⟨(mi.location.getD ⟨0, 0⟩).latitude, (mi.location.getD ⟨0, 0⟩).longitude⟩, now⟩ ∧
      w'.storeCalls = w.storeCalls ++ [StoreCall.putMember username]) := by
  unfold update_daily_active_user at h
  dsimp only at h
  rcases hget : Dict.get (update_members_dict w username so tr loc).members username
    with _ | mi
  · rw [hget] at h
    simp at h
  · rw [hget] at h
    dsimp only at h
    by_cases hc : (mi.selected_org.isSome && mi.travel_radius.isSome
        && mi.location.isSome) = true
    · rw [if_pos hc] at h
      injection h with h
      subst h
      right
      simp only [Bool.and_eq_true] at hc
      refine ⟨mi, hget, hc.1.1, hc.1.2, hc.2, ?_, ?_⟩
      · rw [db_upsert_member_memberEntities, update_members_dict_store]
      · rw [db_upsert_member_storeCalls, update_members_dict_storeCalls]
    · rw [if_neg hc] at h
      injection h with h
      subst h
      left
      exact ⟨congrArg Store.memberEntities (update_members_dict_store w username so tr loc),
             update_members_dict_storeCalls w username so tr loc⟩

/-- C2 witness: alice, with group and radius already in memory, submits a
location; the complete record is persisted and the theorem's disjunction
holds at that call. -/
theorem member_persisted_only_when_complete_witness :
    update_daily_active_user aliceWorld ⟨2026, 10, 12⟩ "alice" none none (some ⟨10, 10⟩)
        = .ok aliceWorldAfter ∧
    ((aliceWorldAfter.store.memberEntities = aliceWorld.store.memberEntities ∧
      aliceWorldAfter.storeCalls = aliceWorld.storeCalls) ∨
     (∃ mi, Dict.get aliceWorldAfter.members "alice" = some mi ∧
       mi.selected_org.isSome = true ∧ mi.travel_radius.isSome = true ∧
       mi.location.isSome = true ∧
       aliceWorldAfter.store.memberEntities
         = putMemberEntity aliceWorld.store.memberEntities
             ⟨"alice", mi.selected_org.getD "", mi.travel_radius.getD "",
              ⟨(mi.location.getD ⟨0, 0⟩).latitude, (mi.location.getD ⟨0, 0⟩).longitude⟩,
              ⟨2026, 10, 12⟩⟩ ∧
       aliceWorldAfter.storeCalls
         = aliceWorld.storeCalls ++ [StoreCall.putMember "alice"])) :=
  ⟨by decide,
   member_persisted_only_when_complete aliceWorld ⟨2026, 10, 12⟩ "alice" none none
     (some ⟨10, 10⟩) aliceWorldAfter (by decide)⟩

/-- C7: a POST event older than 10 seconds (strictly more than 10000 ms)
is answered "Timeout" with the world returned untouched: no in-memory
change, no durable change, no store call, no reply - on both the message
and the callback-query paths. -/
theorem webhook_drops_stale_event (geo : GeopyPoint → GeopyPoint → ℚ) (w : World)
    (env : String) (nowSec : ℤ) (now : PyDate) (req : Request)
    (hpost : req.method = "POST")
    (h : (∃ m, req.update.message = some m ∧
            10000 < get_message_age nowSec m.date m.edit_date) ∨
         (req.update.message = none ∧ ∃ q, req.update.callback_query = some q ∧
            10000 < get_message_age nowSec q.message.date q.message.edit_date)) :
    webhook geo w env nowSec now req = .ok (w, "Timeout") := by
  unfold webhook
  rw [if_pos hpost]
  rcases h with ⟨m, hm, hage⟩ | ⟨hnone, q, hq, hage⟩
  · rw [hm]
    dsimp only
    have ht : timeout nowSec m.date m.edit_date = true := by
      unfold timeout
      rw [if_neg (not_lt.mpr (le_of_lt hage))]
    simp [ht]
  · rw [hnone]
    dsimp only
    rw [hq]
    dsimp only
    have ht : timeout nowSec q.message.date q.message.edit_date = true := by
      unfold timeout
      rw [if_neg (not_lt.mpr (le_of_lt hage))]
    simp [ht]

/-- C7 witness: a text message sent at second 0 and received at second 15
(15000 ms old) is dropped with the world unchanged. -/
theorem webhook_drops_stale_event_witness :
    webhook geoZero emptyWorld "ACME" 15 ⟨2026, 10, 12⟩ staleMsgRequest
      = .ok (emptyWorld, "Timeout") :=
  webhook_drops_stale_event geoZero emptyWorld "ACME" 15 ⟨2026, 10, 12⟩ staleMsgRequest rfl
    (Or.inl ⟨⟨0, none, some "/start", none, "alice"⟩, rfl, by decide⟩)

/-- C9 counterexample: with alice already enrolled in ACME, a second
registration of alice to ACME leaves her member-list count at 2 -
refuting "no member identity occurs more than once in a group's
membership". -/
theorem second_registration_enrolls_twice :
    (add_new_user acmeAliceWorld ⟨2026, 10, 12⟩ (some "acme") "alice").toOption.map
        (fun w' => ((Dict.get w'.organizations "ACME").getD []).count "alice")
      = some 2 := by
  decide

/-- C5: whenever `check_who_is_around` answers, its result is exactly the
requester's organization member list filtered by `nearby_pred` - which
excludes the requester, keeps only members present in `members`, and
compares the distance between the two locations against `float` of the
REQUESTER's own `travel_radius` - with "@" prefixed. -/
theorem check_who_is_around_uses_requester_radius (geo : GeopyPoint → GeopyPoint → ℚ)
    (w : World) (current_username : String) (w' : World) (res : List String)
    (h : check_who_is_around geo w current_username = .ok (w', res)) :
    ∃ cur org, Dict.get w.members current_username = some cur ∧
      cur.selected_org = some org ∧
      res = (((Dict.get w.organizations org).getD []).filter
              (nearby_pred geo w current_username cur)).map (fun u => "@" ++ u) := by
  unfold check_who_is_around at h
  rcases hc : Dict.get w.members current_username with _ | cur
  · rw [hc] at h; simp at h
  · rw [hc] at h
    dsimp only at h
    rcases ho : cur.selected_org with _ | org
    · rw [ho] at h; simp at h
    · rw [ho] at h
      dsimp only at h
      rcases hwl : who_loop geo w current_username cur
          ((Dict.get w.organizations org).getD []) with e | lst
      · rw [hwl] at h; simp at h
      · rw [hwl] at h
        dsimp only at h
        refine ⟨cur, org, rfl, ho, ?_⟩
        have hres : lst = res := by
          by_cases hl : 0 < lst.length
          · rw [if_pos hl] at h
            exact congrArg Prod.snd (Except.ok.inj h)
          · rw [if_neg hl] at h
            exact congrArg Prod.snd (Except.ok.inj h)
        rw [← hres]
        exact who_loop_ok_eq geo w current_username cur _ lst hwl

/-- C5 witness: X (radius "5") and Y (radius "1") share the organization
ACME and are 3 km apart (the geodesic stub returns 3 for every pair): X's
query returns Y but Y's query does not return X, and both results are the
theorem's requester-radius filter of ACME's member list. -/
theorem check_who_is_around_uses_requester_radius_witness :
    check_who_is_around geoConst3 asymWorld "X"
        = .ok (reply asymWorld "members near you", ["@Y"]) ∧
    check_who_is_around geoConst3 asymWorld "Y"
        = .ok (reply asymWorld "no one around", []) ∧
    (∃ cur org, Dict.get asymWorld.members "X" = some cur ∧
      cur.selected_org = some org ∧
      ["@Y"] = (((Dict.get asymWorld.organizations org).getD []).filter
            (nearby_pred geoConst3 asymWorld "X" cur)).map (fun u => "@" ++ u)) ∧
    (∃ cur org, Dict.get asymWorld.members "Y" = some cur ∧
      cur.selected_org = some org ∧
      ([] : List String) = (((Dict.get asymWorld.organizations org).getD []).filter
            (nearby_pred geoConst3 asymWorld "Y" cur)).map (fun u => "@" ++ u)) :=
  ⟨by decide, by decide,
   check_who_is_around_uses_requester_radius geoConst3 asymWorld "X"
     (reply asymWorld "members near you") ["@Y"] (by decide),
   check_who_is_around_uses_requester_radius geoConst3 asymWorld "Y"
     (reply asymWorld "no one around") [] (by decide)⟩

/-- C9 amended: a group's membership is a LIST to which `add_new_user`
appends the registering member unconditionally - after a successful
registration to an authorized group, the group's member list is the
previous list with the username appended, so a member who registers twice
is enrolled twice. -/
theorem add_new_user_appends_unconditionally (w : World) (now : PyDate)
    (t username : String) (hu : username ≠ "")
    (ho : Dict.hasKey w.organizations (pyUpper t) = true) :
    ∃ w', add_new_user w now (some t) username = .ok w' ∧
      Dict.get w'.organizations (pyUpper t)
        = some ((Dict.get w.organizations (pyUpper t)).getD [] ++ [username]) := by
  unfold add_new_user
  dsimp only
  rw [if_neg hu, if_pos ho]
  obtain ⟨w3, h3, horg⟩ := update_daily_active_user_ok
    (db_upsert_org
      { w with
        organizations :=
          Dict.upsert w.organizations (pyUpper t)
            ((Dict.get w.organizations (pyUpper t)).getD [] ++ [username]) }
      (pyUpper t) ((Dict.get w.organizations (pyUpper t)).getD [] ++ [username]))
    now username (some (pyUpper t)) none none hu
  rw [h3]
  refine ⟨_, rfl, ?_⟩
  show Dict.get w3.organizations (pyUpper t) = _
  rw [horg]
  exact Dict.get_upsert_self _ _ _

/-- C9 amended witness: registering alice to "acme" while ACME already
lists alice yields the list with alice appended a second time. -/
theorem add_new_user_appends_unconditionally_witness :
    ∃ w', add_new_user acmeAliceWorld ⟨2026, 10, 12⟩ (some "acme") "alice" = .ok w' ∧
      Dict.get w'.organizations (pyUpper "acme")
        = some ((Dict.get acmeAliceWorld.organizations (pyUpper "acme")).getD []
                  ++ ["alice"]) :=
  add_new_user_appends_unconditionally acmeAliceWorld ⟨2026, 10, 12⟩ "acme" "alice"
    (by decide) (by decide)

/-- C10: `refresh_members` discards the previous `members` dictionary and
rebuilds it solely from the durable Member records (active today); a member
name absent from the store is absent from the rebuilt presence; and an
update that supplies no location to a member who has none stored persists
nothing, so such purely-in-memory state cannot survive the rebuild. -/
theorem refresh_members_clears_and_rebuilds (w : World) (now : PyDate) :
    (refresh_members w now).members = membersFromStore w.store.memberEntities now ∧
    (∀ u, (∀ e ∈ w.store.memberEntities, e.name ≠ u) →
      Dict.get (refresh_members w now).members u = none) ∧
    (∀ username so tr w',
      update_daily_active_user w now username so tr none = .ok w' →
      (∀ mi, Dict.get w.members username = some mi → mi.location = none) →
      w'.store.memberEntities = w.store.memberEntities) := by
  refine ⟨refresh_members_members w now, ?_, ?_⟩
  · intro u hu
    rw [refresh_members_members w now]
    exact membersFromStore_absent _ _ _ hu
  · intro username so tr w' h h2
    unfold update_daily_active_user at h
    dsimp only at h
    by_cases hu : username ≠ ""
    · rw [update_members_dict_get_self w username so tr none hu] at h
      dsimp only at h
      set A := applyUpdates ((Dict.get w.members username).getD {}) so tr none with hA
      have hloc : A.location = none := by
        rw [hA, applyUpdates_location_none]
        rcases hg : Dict.get w.members username with _ | mi0
        · rfl
        · exact h2 mi0 hg
      have hcond : (A.selected_org.isSome && A.travel_radius.isSome
          && A.location.isSome) = false := by
        simp [hloc]
      simp only [hcond, Bool.false_eq_true, if_false] at h
      injection h with h
      subst h
      exact congrArg Store.memberEntities (update_members_dict_store w username so tr none)
    · push_neg at hu
      subst hu
      rw [update_members_dict_of_empty_username] at h
      rcases hg : Dict.get w.members "" with _ | mi
      · rw [hg] at h; simp at h
      · rw [hg] at h
        dsimp only at h
        have hcond : (mi.selected_org.isSome && mi.travel_radius.isSome
            && mi.location.isSome) = false := by
          simp [h2 mi hg]
        simp only [hcond, Bool.false_eq_true, if_false] at h
        injection h with h
        subst h
        rfl

/-- C10 witness: in `bobWorld`, the stored name "eve" is the only durable
member, so "ghost" is absent after the rebuild; and bob's radius update
(no location, none stored) leaves the durable Member records unchanged. -/
theorem refresh_members_clears_and_rebuilds_witness :
    (refresh_members bobWorld ⟨2026, 10, 12⟩).members
        = membersFromStore bobWorld.store.memberEntities ⟨2026, 10, 12⟩ ∧
    Dict.get (refresh_members bobWorld ⟨2026, 10, 12⟩).members "ghost" = none ∧
    bobWorldAfter.store.memberEntities = bobWorld.store.memberEntities :=
  ⟨(refresh_members_clears_and_rebuilds bobWorld ⟨2026, 10, 12⟩).1,
   (refresh_members_clears_and_rebuilds bobWorld ⟨2026, 10, 12⟩).2.1 "ghost" (by decide),
   (refresh_members_clears_and_rebuilds bobWorld ⟨2026, 10, 12⟩).2.2 "bob" none (some "3")
     bobWorldAfter (by decide) (by decide)⟩

/-- C3 amended: after `refresh_organizations` followed by
`refresh_members`, the presence map is determined solely by the durable
Member records whose `created_dttm.day` matches today - no `groupIndex`
filtering is applied, so members of organizations absent from
`organizations` (e.g. unauthorized ones) still appear in presence. -/
theorem presence_rebuild_ignores_group_index (w : World) (env : String) (now : PyDate) :
    (refresh_members (refresh_organizations w env) now).members
      = membersFromStore w.store.memberEntities now ∧
    (∀ u mi, Dict.get (membersFromStore w.store.memberEntities now) u = some mi →
      ∃ e ∈ w.store.memberEntities, e.name = u ∧ e.created_dttm.day = now.day ∧
        mi = memberInfoOfEntity e) := by
  constructor
  · rw [refresh_members_members, refresh_organizations_memberEntities]
  · intro u mi h
    exact membersFromStore_get_some _ _ _ _ h

/-- C3 amended witness: carol's record (organization OTHER, created today)
is the durable origin of her presence entry after both refreshes with
authorized list ACME. -/
theorem presence_rebuild_ignores_group_index_witness :
    (refresh_members (refresh_organizations unauthorizedMemberWorld "ACME")
        ⟨2026, 10, 12⟩).members
      = membersFromStore unauthorizedMemberWorld.store.memberEntities ⟨2026, 10, 12⟩ ∧
    (∃ e ∈ unauthorizedMemberWorld.store.memberEntities, e.name = "carol" ∧
      e.created_dttm.day = 12 ∧
      (⟨some "OTHER", some "2", some ⟨10, 10⟩⟩ : MemberInfo) = memberInfoOfEntity e) :=
  ⟨(presence_rebuild_ignores_group_index unauthorizedMemberWorld "ACME" ⟨2026, 10, 12⟩).1,
   (presence_rebuild_ignores_group_index unauthorizedMemberWorld "ACME" ⟨2026, 10, 12⟩).2
     "carol" ⟨some "OTHER", some "2", some ⟨10, 10⟩⟩ (by decide)⟩

/-- C6: after `refresh_organizations` with authorized list L, every name
of L has an `organizations` entry (at least an empty member list), no key
outside L survives in `organizations`, and no Organization record whose
name is outside L survives in the durable store. -/
theorem refresh_organizations_syncs_authorized (w : World) (env : String) :
    (∀ code ∈ authorizedList env,
      Dict.hasKey (refresh_organizations w env).organizations code = true) ∧
    (∀ k, Dict.hasKey (refresh_organizations w env).organizations k = true →
      k ∈ authorizedList env) ∧
    (∀ e ∈ (refresh_organizations w env).store.orgEntities,
      e.name ∈ authorizedList env) := by
  rw [refresh_organizations_organizations, refresh_organizations_orgEntities]
  unfold orgsIndexAfter orgEntitiesAfter
  dsimp only
  set L := authorizedList env with hL
  set ents := w.store.orgEntities with hents
  set orgs0 := (ents.filter (fun e => L.contains e.name)).foldl
    (fun d e => Dict.upsert d e.name e.members) [] with horgs0
  have hsubset : ∀ k, Dict.hasKey orgs0 k = true → k ∈ L := by
    intro k hk
    rw [horgs0, Dict.hasKey_foldl_upsert] at hk
    simp only [Dict.hasKey, List.any_nil, Bool.false_or, List.any_eq_true,
      decide_eq_true_eq] at hk
    obtain ⟨e, he, hek⟩ := hk
    have hmem := (List.mem_filter.mp he).2
    rw [← hek]
    simpa using hmem
  have hnodup : (orgs0.map Prod.fst).Nodup := by
    rw [horgs0]
    exact Dict.nodup_keys_foldl_upsert _ _ _ _ (by simp)
  refine ⟨?_, ?_, ?_⟩
  · intro code hcode
    by_cases hguard : orgs0.length < L.length
    · rw [if_pos hguard, Dict.hasKey_fill]
      have : L.contains code = true := by simpa using hcode
      simp [this]
      exact Or.inr hcode
    · rw [if_neg hguard]
      push_neg at hguard
      have hkeysub : (orgs0.map Prod.fst).toFinset ⊆ L.toFinset := by
        intro k hk
        rw [List.mem_toFinset] at hk ⊢
        exact hsubset k ((Dict.hasKey_iff_mem_keys _ _).mpr hk)
      have hcard : L.toFinset.card ≤ (orgs0.map Prod.fst).toFinset.card := by
        calc L.toFinset.card = L.dedup.length := List.card_toFinset L
          _ ≤ L.length := (List.dedup_sublist L).length_le
          _ ≤ orgs0.length := hguard
          _ = (orgs0.map Prod.fst).length := (List.length_map _ _).symm
          _ = (orgs0.map Prod.fst).toFinset.card :=
              (List.toFinset_card_of_nodup hnodup).symm
      have heq : (orgs0.map Prod.fst).toFinset = L.toFinset :=
        Finset.eq_of_subset_of_card_le hkeysub hcard
      rw [Dict.hasKey_iff_mem_keys]
      have hmem : code ∈ (orgs0.map Prod.fst).toFinset := by
        rw [heq, List.mem_toFinset]
        exact hcode
      exact List.mem_toFinset.mp hmem
  · intro k hk
    by_cases hguard : orgs0.length < L.length
    · rw [if_pos hguard, Dict.hasKey_fill] at hk
      rcases Bool.or_eq_true_iff.mp hk with hk0 | hkL
      · exact hsubset k hk0
      · simpa using hkL
    · rw [if_neg hguard] at hk
      exact hsubset k hk
  · intro e he
    by_cases hrem : 0 < (ents.filter (fun x => !L.contains x.name)).length
    · rw [if_pos hrem] at he
      have hmem := List.mem_filter.mp he
      by_contra hnotin
      have hin : e ∈ ents.filter (fun x => !L.contains x.name) := by
        refine List.mem_filter.mpr ⟨hmem.1, ?_⟩
        simp only [Bool.not_eq_true']
        by_contra hcon
        simp only [Bool.not_eq_false] at hcon
        exact hnotin (by simpa using hcon)
      have hinmap : e.name ∈ (ents.filter (fun x => !L.contains x.name)).map
          (fun r => r.name) :=
        List.mem_map.mpr ⟨e, hin, rfl⟩
      have hc := hmem.2
      simp only [Bool.not_eq_true'] at hc
      have ht : (List.map (fun r => r.name)
          (List.filter (fun x => !L.contains x.name) ents)).contains e.name = true := by
        simpa using hinmap
      rw [ht] at hc
      simp at hc
    · rw [if_neg hrem] at he
      have hnil : ents.filter (fun x => !L.contains x.name) = [] := by
        rcases hf : ents.filter (fun x => !L.contains x.name) with _ | ⟨a, t⟩
        · exact hf
        · rw [hf] at hrem
          simp at hrem
      have hall := List.filter_eq_nil_iff.mp hnil e he
      simp only [Bool.not_eq_true'] at hall
      simpa using hall

/-- C6 witness: with authorized list "ACME" over a store holding only the
unauthorized organization OTHER, ACME gets an (empty) `organizations`
entry, OTHER's handle is not a surviving key, and OTHER's record is gone
from the store. -/
theorem refresh_organizations_syncs_authorized_witness :
    "ACME" ∈ authorizedList "ACME" ∧
    Dict.hasKey (refresh_organizations unauthorizedMemberWorld "ACME").organizations
      "ACME" = true :=
  ⟨by decide,
   (refresh_organizations_syncs_authorized unauthorizedMemberWorld "ACME").1 "ACME"
     (by decide)⟩

end WeMeetBot
